import Mathlib

/-
Verification of the supermarket-chains scraping pipeline.

Each Python source file of the repository is embedded as a Lean namespace:
  * `Analyze`  — scripts/analyze.py   (city classifier, data loading)
  * `Tam`      — scripts/tam.py      (typed-API adapter, DMS conversion)
  * `Araz`     — scripts/araz.py     (streaming-fragment adapter)
  * `Bravo`    — scripts/bravo.py    (attribute-encoded adapter)
  * `Combine`  — scripts/combine.py  (record merger)

Machine floats are modelled as exact rationals (`ℚ`); Python `str` is `String`;
fallible operations return `Option`.  Calls into external libraries
(`requests`, `BeautifulSoup`, `json.loads`, `pandas.read_csv`) are the
modelling boundary: their *results* are the inputs of the embedded functions.
The regular expressions of the source are executed by a small backtracking
matcher (`Re` namespace below) whose greedy/backtracking order coincides with
CPython's `re` on the concrete patterns used here.
-/

/-! ## Shared character/string helpers -/

/-- Numeric value of a list of ASCII digits (most significant first). -/
def natOfDigits (cs : List Char) : ℕ :=
  cs.foldl (fun n c => 10 * n + (c.toNat - 48)) 0

/-- All characters are ASCII digits. -/
def allDigits (cs : List Char) : Bool :=
  cs.all Char.isDigit

/-- Python `str.strip()` on the character list of a string (whitespace is
modelled by `Char.isWhitespace`). -/
def trimChars (cs : List Char) : List Char :=
  ((cs.dropWhile Char.isWhitespace).reverse.dropWhile Char.isWhitespace).reverse

/-- Does `hay` start with `needle`? -/
def listStartsWith : List Char → List Char → Bool
  | _, [] => true
  | [], _ :: _ => false
  | a :: as, b :: bs => a = b && listStartsWith as bs

/-- Does `hay` contain `needle` as a contiguous run?  Model of Python's
`needle in hay` on strings. -/
def listHasRun (needle : List Char) : List Char → Bool
  | [] => needle.isEmpty
  | c :: rest => listStartsWith (c :: rest) needle || listHasRun needle rest

/-- Python `needle in hay` for strings. -/
def strContains (hay needle : String) : Bool :=
  listHasRun needle.toList hay.toList

/-- Codepoint-lexicographic `≤` on character lists: exactly the ordering
Python's `sorted` uses on strings. -/
def charListLe : List Char → List Char → Bool
  | [], _ => true
  | _ :: _, [] => false
  | a :: as, b :: bs => if a = b then charListLe as bs else decide (a < b)

/-- Codepoint-lexicographic `≤` on strings (Python's string ordering). -/
def strLe (a b : String) : Bool :=
  charListLe a.toList b.toList

/-- Model of Python `float()` applied to a string drawn from the character
classes `\d` / `[\d.]` (as produced by the regex captures of this repo):
an optional integer part, at most one dot, an optional fractional part,
at least one digit overall.  Anything else (a second dot, no digit at all)
makes `float()` raise `ValueError`, modelled as `none`. -/
def parseFloatChars (cs : List Char) : Option ℚ :=
  match cs.splitOn '.' with
  | [ip] =>
      if ip ≠ [] ∧ allDigits ip then some (natOfDigits ip : ℚ) else none
  | [ip, fp] =>
      if (ip ≠ [] ∨ fp ≠ []) ∧ allDigits ip ∧ allDigits fp then
        some ((natOfDigits ip : ℚ) + (natOfDigits fp : ℚ) / 10 ^ fp.length)
      else none
  | _ => none

/-- `float()` on a `String`, possibly with a single leading sign.  Used to
model `pandas.to_numeric` on the coordinate cells. -/
def parseSignedFloat (s : String) : Option ℚ :=
  match trimChars s.toList with
  | '-' :: rest => (parseFloatChars rest).map (fun q => -q)
  | '+' :: rest => parseFloatChars rest
  | cs => parseFloatChars cs

namespace Re

/-! ## A small backtracking regular-expression matcher

The patterns of the repository are sequences of literals, single-character
classes, and greedy `+` / `*` class repetitions.  CPython's `re` matches such
a pattern by trying, at each quantifier, the longest class run first and
backtracking to shorter runs, and `re.search` tries start positions from the
left.  The matcher below implements exactly that strategy, so it agrees with
`re.search` / `re.finditer` on the concrete patterns of the source. -/

/-- One pattern element: a literal character, a single character of a class
(capturing or not), a greedy one-or-more class run (capturing or not), or a
greedy zero-or-more class run (non-capturing; the source only uses it
without a group). -/
inductive Item where
  | lit (c : Char)
  | one (cap : Bool) (cls : Char → Bool)
  | plus (cap : Bool) (cls : Char → Bool)
  | star (cls : Char → Bool)

/-- Backtracking candidates for a greedy `+` over the maximal class run
`pre` (the remaining input being `rest`): the splits of `pre ++ rest` after
`k` class characters, for `k = pre.length, …, 1` in that (greedy) order. -/
def plusSplits (pre rest : List Char) : List (List Char × List Char) :=
  (List.range pre.length).map
    (fun i => (pre.take (pre.length - i), pre.drop (pre.length - i) ++ rest))

/-- Backtracking candidates for a greedy `*`: as `plusSplits` but down to
`k = 0`. -/
def starSplits (pre rest : List Char) : List (List Char × List Char) :=
  (List.range (pre.length + 1)).map
    (fun i => (pre.take (pre.length - i), pre.drop (pre.length - i) ++ rest))

/-- Match a pattern at the start of the input, with explicit fuel (the
recursion consumes exactly one pattern item per step, so `fuel` equal to the
pattern length never runs out; the fuel only makes the recursion structural).
On success, returns the list of captured groups (in pattern order) and the
input remaining after the match. -/
def mtchF : ℕ → List Item → List Char → Option (List String × List Char)
  | _, [], input => some ([], input)
  | 0, _ :: _, _ => none
  | _ + 1, .lit _ :: _, [] => none
  | fuel + 1, .lit c :: ps, d :: input =>
      if d = c then mtchF fuel ps input else none
  | _ + 1, .one _ _ :: _, [] => none
  | fuel + 1, .one cap cls :: ps, d :: input =>
      if cls d then
        (mtchF fuel ps input).map
          (fun r => (if cap then String.mk [d] :: r.1 else r.1, r.2))
      else none
  | fuel + 1, .plus cap cls :: ps, input =>
      (plusSplits (input.takeWhile cls) (input.dropWhile cls)).findSome?
        (fun s => (mtchF fuel ps s.2).map
          (fun r => (if cap then String.mk s.1 :: r.1 else r.1, r.2)))
  | fuel + 1, .star cls :: ps, input =>
      (starSplits (input.takeWhile cls) (input.dropWhile cls)).findSome?
        (fun s => mtchF fuel ps s.2)

/-- Match a pattern at the start of the input. -/
def mtch (ps : List Item) (input : List Char) :
    Option (List String × List Char) :=
  mtchF ps.length ps input

/-- `re.search`: try the pattern at every start position, leftmost first. -/
def search (ps : List Item) : List Char → Option (List String × List Char)
  | [] => mtch ps []
  | c :: rest =>
      match mtch ps (c :: rest) with
      | some r => some r
      | none => search ps rest

/-- `re.finditer` driven by fuel: scan for a match, emit its groups, continue
after the matched text.  Every pattern of the source consumes at least one
character per match, so `fuel = input.length + 1` never truncates. -/
def iterFrom (ps : List Item) : ℕ → List Char → List (List String)
  | 0, _ => []
  | fuel + 1, input =>
      match search ps input with
      | none => []
      | some (gs, rest) => gs :: iterFrom ps fuel rest

/-- All matches of the pattern over the input, in order (`re.finditer`). -/
def findIter (ps : List Item) (s : List Char) : List (List String) :=
  iterFrom ps (s.length + 1) s

/-! ### Character classes and patterns of scripts/tam.py -/

/-- The apostrophe character (codepoint 39). -/
def aposChar : Char := Char.ofNat 39

/-- The double-quote character (codepoint 34). -/
def quotChar : Char := Char.ofNat 34

/-- The degree sign (codepoint 176). -/
def degChar : Char := Char.ofNat 176

/-- Class `[-\d.]` of the URL-coordinate patterns. -/
def coordCls (c : Char) : Bool := c = '-' || c.isDigit || c = '.'

/-- Class `[?&]`. -/
def qCls (c : Char) : Bool := c = '?' || c = '&'

/-- `[?&]q=([-\d.]+),([-\d.]+)` — tam.py line 138 (format 1). -/
def qPattern : List Item :=
  [.one false qCls, .lit 'q', .lit '=', .plus true coordCls, .lit ',',
   .plus true coordCls]

/-- `!3d([-\d.]+)` — tam.py line 146 (format 2, latitude). -/
def d3Pattern : List Item :=
  [.lit '!', .lit '3', .lit 'd', .plus true coordCls]

/-- `!2d([-\d.]+)` — tam.py line 147 (format 2, longitude). -/
def d2Pattern : List Item :=
  [.lit '!', .lit '2', .lit 'd', .plus true coordCls]

/-- Class `[°%C2%B0]` (degrees marker, possibly URL-encoded): the characters
`°ˎ%ˎCˎ2ˎBˎ0`. -/
def degCls (c : Char) : Bool :=
  c = degChar || c = '%' || c = 'C' || c = '2' || c = 'B' || c = '0'

/-- Class `[\d.]` (seconds with a decimal point). -/
def secCls (c : Char) : Bool := c.isDigit || c = '.'

/-- Class `[\"'%22]` (seconds marker, possibly URL-encoded): the characters
`"`, apostrophe, `%`, `2`. -/
def quoteCls (c : Char) : Bool :=
  c = quotChar || c = aposChar || c = '%' || c = '2'

/-- Class `[NS]`. -/
def hemiNS (c : Char) : Bool := c = 'N' || c = 'S'

/-- Class `[EW]`. -/
def hemiEW (c : Char) : Bool := c = 'E' || c = 'W'

/-- Class `[^\d]`. -/
def notDigit (c : Char) : Bool := !c.isDigit

/-- The DMS pattern of `dms_to_decimal` (tam.py line 29):
`(\d+)[°%C2%B0]+(\d+)'([\d.]+)[\"'%22]+([NS])[^\d]*` followed by the same
shape for `([EW])`. -/
def dmsPattern : List Item :=
  [.plus true Char.isDigit, .plus false degCls, .plus true Char.isDigit,
   .lit aposChar, .plus true secCls, .plus false quoteCls, .one true hemiNS,
   .star notDigit,
   .plus true Char.isDigit, .plus false degCls, .plus true Char.isDigit,
   .lit aposChar, .plus true secCls, .plus false quoteCls, .one true hemiEW]

/-- Number of capturing groups of a pattern. -/
def capCount : List Item → ℕ
  | [] => 0
  | .one true _ :: ps => capCount ps + 1
  | .plus true _ :: ps => capCount ps + 1
  | _ :: ps => capCount ps

end Re

/-! ## A minimal JSON value model (for the API-shaped inputs) -/

/-- JSON values as returned by `json.loads` / `response.json()`; an object's
fields are listed in insertion order with distinct keys, as in a Python
dict. -/
inductive Json where
  | null
  | bool (b : Bool)
  | num (q : ℚ)
  | str (s : String)
  | arr (elems : List Json)
  | obj (fields : List (String × Json))

/-- Python truthiness of a JSON value. -/
def Json.truthy : Json → Bool
  | .null => false
  | .bool b => b
  | .num q => decide (q ≠ 0)
  | .str s => decide (s ≠ "")
  | .arr xs => !xs.isEmpty
  | .obj kvs => !kvs.isEmpty

/-- Dictionary lookup (`data[key]`, `key in data` when the result is
`isSome`). -/
def Json.getKey (kvs : List (String × Json)) (k : String) : Option Json :=
  (kvs.find? (fun p => p.1 = k)).map (·.2)

namespace Tam

/-! ## scripts/tam.py — the typed-API adapter -/

/-- `dms_to_decimal` (tam.py lines 16-50): search the DMS pattern, convert
each captured component with `float()`, combine as
`degrees + minutes/60 + seconds/3600`, and negate for the `S` / `W`
hemispheres.  `none` models the `('', '')` failure return (no match, or a
`ValueError` from a malformed numeric, caught by the bare `except`). -/
def dms_to_decimal (dms_str : String) : Option (ℚ × ℚ) :=
  match Re.search Re.dmsPattern dms_str.toList with
  | some ([latDeg, latMin, latSec, latDir, lonDeg, lonMin, lonSec, lonDir], _) =>
      (parseFloatChars latDeg.toList).bind fun ld =>
      (parseFloatChars latMin.toList).bind fun lm =>
      (parseFloatChars latSec.toList).bind fun ls =>
      (parseFloatChars lonDeg.toList).bind fun nd =>
      (parseFloatChars lonMin.toList).bind fun nm =>
      (parseFloatChars lonSec.toList).bind fun ns =>
      let latitude := ld + lm / 60 + ls / 3600
      let longitude := nd + nm / 60 + ns / 3600
      some ((if latDir = "S" then -latitude else latitude),
            (if lonDir = "W" then -longitude else longitude))
  | _ => none

/-- Value of one hexadecimal digit. -/
def hexDigitVal (c : Char) : Option ℕ :=
  if c.isDigit then some (c.toNat - 48)
  else if 'A' ≤ c ∧ c ≤ 'F' then some (c.toNat - 55)
  else if 'a' ≤ c ∧ c ≤ 'f' then some (c.toNat - 87)
  else none

/-- Byte stream of `urllib.parse.unquote`'s input: each `%XX` with two hex
digits becomes the byte `XX`; any other character contributes its UTF-8
bytes (a `%` not followed by two hex digits stays literal). -/
def unquoteBytes : List Char → List UInt8
  | '%' :: h1 :: h2 :: rest =>
      match hexDigitVal h1, hexDigitVal h2 with
      | some a, some b => UInt8.ofNat (16 * a + b) :: unquoteBytes rest
      | _, _ => String.utf8EncodeChar '%' ++ unquoteBytes (h1 :: h2 :: rest)
  | c :: rest => String.utf8EncodeChar c ++ unquoteBytes rest
  | [] => []

/-- Strict UTF-8 decoding of a byte list (rejecting truncated, overlong and
surrogate sequences). -/
def utf8Decode : List UInt8 → Option (List Char)
  | [] => some []
  | b :: rest =>
      let n := b.toNat
      if n < 0x80 then
        (utf8Decode rest).map (Char.ofNat n :: ·)
      else if 0xC2 ≤ n ∧ n ≤ 0xDF then
        match rest with
        | b2 :: rest2 =>
            let n2 := b2.toNat
            if 0x80 ≤ n2 ∧ n2 ≤ 0xBF then
              (utf8Decode rest2).map (Char.ofNat ((n - 0xC0) * 64 + (n2 - 0x80)) :: ·)
            else none
        | _ => none
      else if 0xE0 ≤ n ∧ n ≤ 0xEF then
        match rest with
        | b2 :: b3 :: rest3 =>
            let n2 := b2.toNat
            let n3 := b3.toNat
            let cp := (n - 0xE0) * 4096 + (n2 - 0x80) * 64 + (n3 - 0x80)
            if 0x80 ≤ n2 ∧ n2 ≤ 0xBF ∧ 0x80 ≤ n3 ∧ n3 ≤ 0xBF ∧ 0x800 ≤ cp ∧
                (cp < 0xD800 ∨ 0xE000 ≤ cp) then
              (utf8Decode rest3).map (Char.ofNat cp :: ·)
            else none
        | _ => none
      else if 0xF0 ≤ n ∧ n ≤ 0xF4 then
        match rest with
        | b2 :: b3 :: b4 :: rest4 =>
            let n2 := b2.toNat
            let n3 := b3.toNat
            let n4 := b4.toNat
            let cp := (n - 0xF0) * 262144 + (n2 - 0x80) * 4096 +
              (n3 - 0x80) * 64 + (n4 - 0x80)
            if 0x80 ≤ n2 ∧ n2 ≤ 0xBF ∧ 0x80 ≤ n3 ∧ n3 ≤ 0xBF ∧ 0x80 ≤ n4 ∧
                n4 ≤ 0xBF ∧ 0x10000 ≤ cp ∧ cp ≤ 0x10FFFF then
              (utf8Decode rest4).map (Char.ofNat cp :: ·)
            else none
        | _ => none
      else none

/-- `urllib.parse.unquote` (tam.py line 154).  Modelling choice: on byte
sequences that are not valid UTF-8 (where CPython would insert replacement
characters) the input string is returned unchanged; no claim exercises that
path. -/
def unquote (s : String) : String :=
  match utf8Decode (unquoteBytes s.toList) with
  | some cs => String.mk cs
  | none => s

/-- A coordinate field value as produced by `scrape_tam_locations`: either a
substring captured verbatim from the URL (formats 1 and 2), or a number
produced by the DMS conversion (format 3). -/
inductive CoordVal where
  | str (s : String)
  | num (q : ℚ)
  deriving DecidableEq

/-- The three-stage coordinate extraction from the `map` field
(tam.py lines 136-158), applied after any shortened-URL redirect was
resolved: format 1 is the `q=lat,lng` query parameter; format 2 the
`!3d` / `!2d` tile descriptors (both must match); format 3 the DMS text of
the URL-decoded field.  `none` models leaving both fields `''`. -/
def extract_map_coords (map_data : String) : Option (CoordVal × CoordVal) :=
  match Re.search Re.qPattern map_data.toList with
  | some ([la, lo], _) => some (.str la, .str lo)
  | _ =>
      match Re.search Re.d3Pattern map_data.toList,
            Re.search Re.d2Pattern map_data.toList with
      | some ([la], _), some ([lo], _) => some (.str la, .str lo)
      | _, _ =>
          (dms_to_decimal (unquote map_data)).map
            (fun p => (.num p.1, .num p.2))

/-- The candidate container keys probed on a JSON-object response
(tam.py line 91), in order. -/
def containerKeys : List String := ["data", "branches", "stores", "locations", "items"]

/-- The `branch_list` normalization of `scrape_tam_locations`
(tam.py lines 85-98): a list response is used as is; on an object response
the first present candidate key wins, and if the probed result is falsy
while the object itself is truthy, the whole object becomes a one-element
list; any other response shape leaves the initial empty list. -/
def branch_list (data : Json) : Json :=
  match data with
  | .arr xs => .arr xs
  | .obj kvs =>
      let bl := (containerKeys.findSome? (Json.getKey kvs)).getD (.arr [])
      if !bl.truthy && (Json.obj kvs).truthy then .arr [.obj kvs] else bl
  | _ => .arr []

end Tam

/-- The DMS string used as the format example in the docstring of
`dms_to_decimal` (tam.py line 21): `40°22'34.8"N 47°07'33.2"E`. -/
def dms_doc_example : String :=
  String.mk ['4', '0', Re.degChar, '2', '2', Re.aposChar, '3', '4', '.', '8',
             Re.quotChar, 'N', ' ',
             '4', '7', Re.degChar, '0', '7', Re.aposChar, '3', '3', '.', '2',
             Re.quotChar, 'E']

namespace Araz

/-! ## scripts/araz.py — the streaming-fragment adapter -/

/-- A record as built by the adapter: a Python dict in insertion order.  The
primary and tertiary strategies store strings; the secondary strategy copies
values straight out of the parsed JSON. -/
abbrev Rec := List (String × Json)

/-- Outcome of `json.loads` on the argument text of one
`self.__next_f.push([...])` call (araz.py lines 56-64): the parse may raise
(chunk skipped by the `except`), the array may have fewer than two elements,
its second element may not be a string, or it is a payload string. -/
inductive Chunk where
  | badJson
  | tooShort
  | nonString
  | payload (s : String)

/-- Marker `"title"` (with its JSON quotes), araz.py line 64. -/
def markerTitle : String :=
  String.mk ([Re.quotChar] ++ ['t', 'i', 't', 'l', 'e'] ++ [Re.quotChar])

/-- Marker `"address"`. -/
def markerAddress : String :=
  String.mk ([Re.quotChar] ++ ['a', 'd', 'd', 'r', 'e', 's', 's'] ++ [Re.quotChar])

/-- Marker `"phone_number"`. -/
def markerPhone : String :=
  String.mk ([Re.quotChar] ++
    ['p', 'h', 'o', 'n', 'e', '_', 'n', 'u', 'm', 'b', 'e', 'r'] ++ [Re.quotChar])

/-- A payload is treated as data-bearing only if it textually contains all
three markers (araz.py line 64). -/
def markersPresent (s : String) : Bool :=
  strContains s markerTitle && strContains s markerAddress &&
    strContains s markerPhone

/-- The opening brace. -/
def lbrace : Char := Char.ofNat 123

/-- The closing brace. -/
def rbrace : Char := Char.ofNat 125

/-- Class `[^"]`. -/
def notQuot (c : Char) : Bool := !(c = Re.quotChar)

/-- Class `[^}]`. -/
def notRbrace (c : Char) : Bool := !(c = rbrace)

/-- Literal items for a character list. -/
def lits (cs : List Char) : List Re.Item := cs.map Re.Item.lit

/-- Literal items for the separator `","<name>":"` between two captured
string fields. -/
def sepKey (name : List Char) : List Re.Item :=
  lits ([Re.quotChar, ',', Re.quotChar] ++ name ++ [Re.quotChar, ':', Re.quotChar])

/-- The strict store-object pattern of the streaming strategy (araz.py
line 71), requiring the literal field order
`id, title, address, work_time, phone_number, lat, lon`. -/
def storePattern : List Re.Item :=
  lits ([lbrace, Re.quotChar] ++ ['i', 'd'] ++ [Re.quotChar, ':']) ++
  [.plus true Char.isDigit] ++
  lits ([',', Re.quotChar] ++ ['t', 'i', 't', 'l', 'e'] ++
    [Re.quotChar, ':', Re.quotChar]) ++
  [.plus true notQuot] ++
  sepKey ['a', 'd', 'd', 'r', 'e', 's', 's'] ++ [.plus true notQuot] ++
  sepKey ['w', 'o', 'r', 'k', '_', 't', 'i', 'm', 'e'] ++ [.plus true notQuot] ++
  sepKey ['p', 'h', 'o', 'n', 'e', '_', 'n', 'u', 'm', 'b', 'e', 'r'] ++
  [.plus true notQuot] ++
  sepKey ['l', 'a', 't'] ++ [.plus true notQuot] ++
  sepKey ['l', 'o', 'n'] ++ [.plus true notQuot] ++
  lits [Re.quotChar] ++ [.star notRbrace] ++ lits [rbrace]

/-- Python `.replace('\\\\', '\\')`: collapse each two-backslash pair into
one, scanning left to right (araz.py lines 77-80). -/
def unescapeBS : List Char → List Char
  | '\\' :: '\\' :: rest => '\\' :: unescapeBS rest
  | c :: rest => c :: unescapeBS rest
  | [] => []

/-- One extracted store of the streaming strategy (all string fields). -/
structure Store where
  name : String
  address : String
  phone : String
  hours : String
  latitude : String
  longitude : String
  deriving DecidableEq

/-- Build the store from the seven captured groups (araz.py lines 75-91);
the backslash unescaping is applied to title, address, hours and phone but
not to the coordinates. -/
def storeOfGroups (gs : List String) : Option Store :=
  match gs with
  | [_, title, addr, work, phone, lat, lon] =>
      some { name := String.mk (unescapeBS title.toList),
             address := String.mk (unescapeBS addr.toList),
             phone := String.mk (unescapeBS phone.toList),
             hours := String.mk (unescapeBS work.toList),
             latitude := lat,
             longitude := lon }
  | _ => none

/-- Append one matched store unless a store with the same
`(name, address)` is already present (araz.py lines 93-95). -/
def addStore (acc : List Store) (gs : List String) : List Store :=
  match storeOfGroups gs with
  | none => acc
  | some st =>
      if acc.any (fun s => s.name == st.name && s.address == st.address) then
        acc
      else acc ++ [st]

/-- Process one push-chunk of the primary strategy: a payload containing all
three markers is scanned with the strict store pattern; any other chunk
contributes nothing. -/
def chunkStores (acc : List Store) : Chunk → List Store
  | .payload s =>
      if markersPresent s then
        (Re.findIter storePattern s.toList).foldl addStore acc
      else acc
  | _ => acc

/-- The primary (streaming-fragment) strategy over all chunks
(araz.py lines 54-99). -/
def primaryStores (chunks : List Chunk) : List Store :=
  chunks.foldl chunkStores []

/-- The record appended for one streaming-strategy store. -/
def storeRec (st : Store) : Rec :=
  [("name", Json.str st.name), ("address", Json.str st.address),
   ("phone", Json.str st.phone), ("hours", Json.str st.hours),
   ("latitude", Json.str st.latitude), ("longitude", Json.str st.longitude)]

/-- Outcome of `json.loads` on the `__NEXT_DATA__` script body
(araz.py line 113): a raised exception falls through to the HTML strategy. -/
inductive NextData where
  | parseFail
  | ok (data : Json)

/-- `value.get(key, dflt)`: `none` models the `AttributeError` raised when
the value is not a dict (caught by the surrounding `try`). -/
def dictGet (j : Json) (k : String) (dflt : Json) : Option Json :=
  match j with
  | .obj kvs => some ((Json.getKey kvs k).getD dflt)
  | _ => none

/-- The candidate store-list keys probed in `pageProps`
(araz.py line 122), in order. -/
def secondaryKeys : List String :=
  ["stores", "branches", "locations", "data", "storesList"]

/-- `key in page_props` (a membership test whose meaning depends on the
value's type; on numbers or `null` Python raises `TypeError`, modelled
`none` and caught by the surrounding `try`). -/
def jsonContains (j : Json) (k : String) : Option Bool :=
  match j with
  | .obj kvs => some (Json.getKey kvs k).isSome
  | .arr xs => some (xs.any (fun x =>
      match x with
      | .str s => s == k
      | _ => false))
  | .str s => some (strContains s k)
  | _ => none

/-- The probing loop `for key in [...] : if key in page_props: ... break`
(araz.py lines 121-126): `none` = an exception escaped (to the HTML
fallback), `some none` = no key found (`stores_data` stays `None`),
`some (some v)` = first present key's value. -/
def probeStores : List String → Json → Option (Option Json)
  | [], _ => some none
  | k :: ks, pp =>
      match jsonContains pp k with
      | none => none
      | some true =>
          match pp with
          | .obj kvs => some (Json.getKey kvs k)
          | _ => none
      | some false => probeStores ks pp

/-- The record built for one secondary-strategy store (araz.py lines
135-143); `none` models the `AttributeError` on a non-dict element, which
aborts the loop (records appended so far are kept). -/
def secondaryRec (store : Json) : Option Rec :=
  match store with
  | .obj kvs =>
      some [("name", (Json.getKey kvs "name").getD
              ((Json.getKey kvs "title").getD (Json.str "N/A"))),
            ("address", (Json.getKey kvs "address").getD
              ((Json.getKey kvs "location").getD (Json.str ""))),
            ("phone", (Json.getKey kvs "phone").getD
              ((Json.getKey kvs "tel").getD (Json.str ""))),
            ("hours", (Json.getKey kvs "hours").getD
              ((Json.getKey kvs "workingHours").getD
                ((Json.getKey kvs "working_hours").getD (Json.str ""))))]
  | _ => none

/-- The secondary extraction loop: returns the records appended and whether
the loop completed (reaching `return branches`); on a mid-loop exception the
prefix is kept and control falls to the HTML strategy. -/
def storeLoop : List Json → List Rec × Bool
  | [] => ([], true)
  | s :: rest =>
      match secondaryRec s with
      | none => ([], false)
      | some r =>
          let p := storeLoop rest
          (r :: p.1, p.2)

/-- The `page_list_option` block of one HTML store (araz.py lines 181-194):
the stripped text of the first `tel:` link and of the first `<small>`. -/
structure HtmlOptions where
  telLink : Option String
  timeSmall : Option String

/-- The accordion content block (araz.py lines 172-194). -/
structure HtmlContent where
  addressP : Option String
  options : Option HtmlOptions

/-- One accordion item (araz.py lines 162-194): `titleSpan` is the stripped
span text of the title toggle (absent when the toggle or its span is
missing). -/
structure HtmlAccordion where
  titleSpan : Option String
  content : Option HtmlContent

/-- One candidate store div of the HTML fallback; `accordion` is the result
of `store_div.find` for the accordion item (a descendant search). -/
structure HtmlDiv where
  accordion : Option HtmlAccordion

/-- The record of one HTML-fallback store (araz.py lines 159-204); `none`
models the `continue` branches (no accordion, no content). -/
def tertiaryRec (d : HtmlDiv) : Option Rec :=
  match d.accordion with
  | none => none
  | some acc =>
      match acc.content with
      | none => none
      | some content =>
          let name := acc.titleSpan.getD "N/A"
          let address := content.addressP.getD ""
          let phone := (content.options.bind (·.telLink)).getD ""
          let hours := (content.options.bind (·.timeSmall)).getD ""
          some [("name", Json.str name), ("address", Json.str address),
                ("phone", Json.str phone), ("hours", Json.str hours)]

/-- The tertiary (HTML) strategy (araz.py lines 151-208): the
`page_list__v5vEU` divs, or if none the `accardion_accardionItem__Fyf_W`
divs, each parsed independently. -/
def tertiary (pageListDivs accordionDivs : List HtmlDiv) : List Rec :=
  (if pageListDivs.isEmpty then accordionDivs else pageListDivs).filterMap
    tertiaryRec

/-- The parsed document as seen by the adapter after the collaborator calls
(`re.findall` + `json.loads` for the push chunks, BeautifulSoup for the
script tag and the div lists). -/
structure Doc where
  chunks : List Chunk
  nextData : Option NextData
  pageListDivs : List HtmlDiv
  accordionDivs : List HtmlDiv

/-- `scrape_araz_locations` (araz.py lines 14-210) on a fetched document:
the streaming-fragment strategy wins outright when it finds any store; the
`__NEXT_DATA__` strategy is consulted otherwise and returns when its loop
completes over a truthy list; every remaining path (missing script, JSON
parse failure, navigation or probing exception, no key, falsy or non-list
value, or a mid-loop exception — which keeps the records already appended)
continues into the HTML strategy. -/
def scrape_araz_locations (doc : Doc) : List Rec :=
  let primary := primaryStores doc.chunks
  if !primary.isEmpty then primary.map storeRec
  else
    let tert := tertiary doc.pageListDivs doc.accordionDivs
    match doc.nextData with
    | some (.ok data) =>
        match (dictGet data "props" (.obj [])).bind
            (fun p => dictGet p "pageProps" (.obj [])) with
        | none => tert
        | some pp =>
            match probeStores secondaryKeys pp with
            | none => tert
            | some none => tert
            | some (some sd) =>
                if sd.truthy then
                  match sd with
                  | .arr elems =>
                      let p := storeLoop elems
                      if p.2 then p.1 else p.1 ++ tert
                  | _ => tert
                else tert
    | some .parseFail => tert
    | none => tert

/-- Two stores differ on the `(name, address)` de-duplication key. -/
def distinctKey (s t : Store) : Prop :=
  ¬(s.name = t.name ∧ s.address = t.address)

/-- The store-list elements of the mixed-strategy example document: one
well-formed store dict followed by a bare number (on which `store.get`
raises). -/
def mixElems : List Json :=
  [.obj [("name", .str "JSON Store")], .num 5]

/-- The mixed-strategy example document: no streaming chunks, a
`__NEXT_DATA__` whose `pageProps.stores` is `mixElems`, and one parseable
HTML store div. -/
def mixDoc : Doc :=
  { chunks := [],
    nextData := some (.ok (.obj [("props",
      .obj [("pageProps", .obj [("stores", .arr mixElems)])])])),
    pageListDivs :=
      [{ accordion := some
          { titleSpan := some "HTML Store",
            content := some { addressP := some "HTML Addr", options := none } } }],
    accordionDivs := [] }

end Araz

namespace Bravo

/-! ## scripts/bravo.py — the attribute-encoded adapter -/

/-- One `<li>` of a branch article (bravo.py lines 58-72): its class list
(`[]` when the attribute is absent) and the stripped text of its first
`<span>` (if any). -/
structure LI where
  classes : List String
  spanText : Option String

/-- One `<article data-lat=… data-lng=…>` as selected by `find_all`
(bravo.py line 40); the two coordinate attributes are guaranteed present by
the selector. -/
structure Article where
  h3Text : Option String
  listItems : List LI
  dataLat : String
  dataLng : String
  dataCategory : String
  mapsHref : Option String

/-- The recognised branch-type names (bravo.py line 65). -/
def typeNames : List String := ["Hiper", "Super", "Market", "Ekspres", "Premium"]

/-- The category-code table (bravo.py lines 82-87). -/
def category_map : List (String × String) :=
  [("2237", "Hiper"), ("2236", "Super"), ("2235", "Market"), ("2238", "Ekspres")]

/-- The `<li>` classification loop (bravo.py lines 58-72), folding the state
`(branch_type, phone, address, hours)`. -/
def liFold (st : String × String × String × String) (li : LI) :
    String × String × String × String :=
  match li.spanText with
  | none => st
  | some text =>
      if !li.classes.isEmpty && li.classes.contains "location" then
        if st.1 = "" ∧ typeNames.contains text then
          (text, st.2.1, st.2.2.1, st.2.2.2)
        else (st.1, st.2.1, text, st.2.2.2)
      else if !li.classes.isEmpty && li.classes.contains "phone" then
        (st.1, text, st.2.2.1, st.2.2.2)
      else if !li.classes.isEmpty && li.classes.contains "time" then
        (st.1, st.2.1, st.2.2.1, text)
      else st

/-- Parse one branch article (bravo.py lines 44-111) into the dict of nine
fields, in the source's insertion order. -/
def parseArticle (a : Article) : List (String × String) :=
  let name := a.h3Text.getD "N/A"
  let st := a.listItems.foldl liFold ("", "", "", "")
  let branch_type :=
    if st.1 = "" then
      ((category_map.find? (fun p => p.1 = a.dataCategory)).map (fun p => p.2)).getD ""
    else st.1
  [("name", name), ("type", branch_type), ("phone", st.2.1),
   ("address", st.2.2.1), ("hours", st.2.2.2), ("latitude", a.dataLat),
   ("longitude", a.dataLng), ("category_id", a.dataCategory),
   ("google_maps_url", a.mapsHref.getD "")]

/-- `scrape_bravo_locations` (bravo.py lines 14-117): one record is appended
per article, with no de-duplication of any kind. -/
def scrape_bravo_locations (articles : List Article) :
    List (List (String × String)) :=
  articles.map parseArticle

end Bravo

namespace Combine

/-! ## scripts/combine.py — the record merger -/

/-- One CSV row as produced by `csv.DictReader`: the file's header keys with
this row's cell values, in header order. -/
abbrev Row := List (String × String)

/-- `os.path.basename`. -/
def basename (p : String) : String :=
  String.mk ((p.toList.splitOn '/').getLastD [])

/-- Python `str.replace('.csv', '')`: remove every occurrence, scanning left
to right. -/
def removeCsv : List Char → List Char
  | '.' :: 'c' :: 's' :: 'v' :: rest => removeCsv rest
  | c :: rest => c :: removeCsv rest
  | [] => []

/-- `str.upper()` (the chain file names are ASCII). -/
def upperAscii (s : String) : String :=
  String.mk (s.toList.map Char.toUpper)

/-- Chain name from the file path (combine.py line 35):
`os.path.basename(file_path).replace('.csv', '').upper()`. -/
def chainName (path : String) : String :=
  upperAscii (String.mk (removeCsv (basename path).toList))

/-- Dict assignment `row['chain'] = v`: replace an existing binding in
place, else append the new key. -/
def rowSet (r : Row) (k v : String) : Row :=
  if r.any (fun p => p.1 = k) then
    r.map (fun p => if p.1 = k then (k, v) else p)
  else r ++ [(k, v)]

/-- `combined_data` (combine.py lines 29-49): every row of every existing
input file, tagged with its chain (file reading itself is the I/O
boundary: the input is the per-file row lists that `csv.DictReader`
produced). -/
def combinedData (inputs : List (String × List Row)) : List Row :=
  inputs.flatMap (fun pr => pr.2.map (fun r => rowSet r "chain" (chainName pr.1)))

/-- The fixed preferred column ordering (combine.py line 59). -/
def common_fields : List String :=
  ["chain", "name", "address", "phone", "hours", "latitude", "longitude"]

/-- The union of all field names seen across all rows (a Python `set`,
here deduplicated in first-seen order — the order is irrelevant because the
result is only filtered and sorted). -/
def allFields (rows : List Row) : List String :=
  (rows.flatMap (fun r => r.map (fun p => p.1))).eraseDups

/-- `sorted(all_fields - set(common_fields))` (combine.py line 60). -/
def extraFields (rows : List Row) : List String :=
  ((allFields rows).filter (fun f => !common_fields.contains f)).insertionSort
    (fun a b => strLe a b = true)

/-- The output header (combine.py line 61). -/
def fieldnames (rows : List Row) : List String :=
  common_fields ++ extraFields rows

/-- One written CSV row: `csv.DictWriter` with `restval=''` (missing fields
become empty cells) and `extrasaction='ignore'`. -/
def renderRow (fns : List String) (r : Row) : List String :=
  fns.map (fun f => ((r.find? (fun p => p.1 = f)).map (fun p => p.2)).getD "")

/-- `combine_supermarket_data` (combine.py lines 12-88): `none` when there
is no data (nothing is written), else the header and the rendered rows. -/
def combine_supermarket_data (inputs : List (String × List Row)) :
    Option (List String × List (List String)) :=
  let data := combinedData inputs
  if data.isEmpty then none
  else some (fieldnames data, data.map (renderRow (fieldnames data)))

/-- Example merger input: two sources with disjoint extra fields. -/
def exInputs : List (String × List Row) :=
  [("data/bravo.csv", [[("name", "A"), ("zz", "x")]]),
   ("data/tam.csv", [[("name", "B"), ("aa", "y")]])]

end Combine

namespace Analyze

/-! ## scripts/analyze.py — data loading and the city classifier -/

/-- `pd.to_numeric(cell, errors='coerce')` on one CSV cell: a missing cell
(`none`, pandas `NaN`) or an unparsable string coerces to `NaN`, modelled as
`none`; a numeric string parses to its exact value.  (analyze.py lines
30-31.) -/
def to_numeric (cell : Option String) : Option ℚ :=
  cell.bind parseSignedFloat

/-- Coordinate-relevant outcome of `load_data` for one row
(analyze.py lines 27-39). -/
structure LoadedRow where
  latitude : Option ℚ
  longitude : Option ℚ
  has_coords : Bool
  deriving DecidableEq

/-- `load_data`, restricted to the two coordinate columns: both are passed
through `pd.to_numeric(errors='coerce')` and `has_coords` is
`latitude.notna() & longitude.notna()`.  No other transformation is applied
to the coordinate values. -/
def load_row (latCell lonCell : Option String) : LoadedRow :=
  let la := to_numeric latCell
  let lo := to_numeric lonCell
  ⟨la, lo, la.isSome && lo.isSome⟩

/-- The 14 reference city centers of `infer_city_from_coordinates`
(analyze.py lines 45-60), in source (insertion) order. -/
def city_coords : List (String × ℚ × ℚ) :=
  [("Bakı", 40.4093, 49.8671),
   ("Sumqayıt", 40.5894, 49.6684),
   ("Gəncə", 40.6828, 46.3606),
   ("Mingəçevir", 40.7639, 47.0497),
   ("Xırdalan", 40.4527, 49.7389),
   ("Şəki", 41.1974, 47.1704),
   ("Naxçıvan", 39.2090, 45.4120),
   ("Şirvan", 39.9369, 48.9200),
   ("Lənkəran", 38.7542, 48.8510),
   ("Qazax", 41.0924, 45.3654),
   ("Zaqatala", 41.6317, 46.6445),
   ("Şamaxı", 40.6304, 48.6389),
   ("Quba", 41.3614, 48.5128),
   ("Masallı", 39.0352, 48.6717)]

/-- Squared Euclidean distance in degree space.  The Python code compares
`np.sqrt` of this sum; since the square root is strictly monotone on
nonnegative reals, every comparison of the source (`dist < min_dist`,
`min_dist > 0.5`) is performed here on the squares (threshold `0.5²=1/4`). -/
def distSq (lat lon clat clon : ℚ) : ℚ :=
  (lat - clat) ^ 2 + (lon - clon) ^ 2

/-- One step of the minimum search of `infer_city_from_coordinates`
(analyze.py lines 63-70): `none` models the initial `min_dist = inf`,
paired with the initial `nearest_city = 'Bakı'`. -/
def nearestStep (lat lon : ℚ) (st : Option ℚ × String) (c : String × ℚ × ℚ) :
    Option ℚ × String :=
  let d := distSq lat lon c.2.1 c.2.2
  match st.1 with
  | none => (some d, c.1)
  | some m => if d < m then (some d, c.1) else st

/-- The full minimum search over the reference centers. -/
def nearestFold (lat lon : ℚ) : Option ℚ × String :=
  city_coords.foldl (nearestStep lat lon) (none, "Bakı")

/-- `infer_city_from_coordinates` (analyze.py lines 42-78).  If the minimal
(squared) distance exceeds `1/4` (`min_dist > 0.5` in the source) the result
is `"Bakı"` inside the bounding box `40.1 < lat < 40.7 ∧ 49.5 < lon < 50.5`
and `"Regional"` outside it; otherwise the nearest center's name. -/
def infer_city_from_coordinates (lat lon : ℚ) : String :=
  let st := nearestFold lat lon
  if 1 / 4 < st.1.getD 0 then
    if 40.1 < lat ∧ lat < 40.7 ∧ 49.5 < lon ∧ lon < 50.5 then "Bakı"
    else "Regional"
  else st.2

/-- The blank-address test of `extract_city_from_address` (analyze.py
line 86): `pd.isna(address) or str(address).strip() == ''`. -/
def isBlankAddress : Option String → Bool
  | none => true
  | some s => trimChars s.toList = []

/-- The branch of `extract_city_from_address` taken for a blank address
(analyze.py lines 83-89): with both coordinates present the city is inferred
from them, otherwise the row is labelled `"Unknown"`.  Rows with a non-blank
address are handled by the address-text heuristics of the rest of the
function, which no claim quantifies over; the embedding returns `none` for
them. -/
def extract_city_blank (address : Option String) (lat lon : Option ℚ) :
    Option String :=
  if isBlankAddress address then
    some (match lat, lon with
          | some la, some lo => infer_city_from_coordinates la lo
          | _, _ => "Unknown")
  else none

lemma nearestFold_inv (lat lon : ℚ) (l : List (String × ℚ × ℚ)) :
    ∀ (st : Option ℚ × String), (∀ m, st.1 = some m → 1 / 4 < m) →
      (∀ c ∈ l, 1 / 4 < distSq lat lon c.2.1 c.2.2) →
      ∀ m, (l.foldl (nearestStep lat lon) st).1 = some m → 1 / 4 < m := by
  induction l with
  | nil => intro st hst _ m hm; exact hst m hm
  | cons c l ih =>
      intro st hst hl m hm
      refine ih _ ?_ (fun d hd => hl d (List.mem_cons_of_mem _ hd)) m hm
      intro m' hm'
      unfold nearestStep at hm'
      rcases h1 : st.1 with _ | mc
      · rw [h1] at hm'
        simp only at hm'
        cases hm'
        exact hl c (List.mem_cons_self _ _)
      · rw [h1] at hm'
        simp only at hm'
        by_cases hlt : distSq lat lon c.2.1 c.2.2 < mc
        · rw [if_pos hlt] at hm'
          cases hm'
          exact hl c (List.mem_cons_self _ _)
        · rw [if_neg hlt] at hm'
          exact hst m' hm'

lemma nearestFold_isSome (lat lon : ℚ) :
    ∃ m, (nearestFold lat lon).1 = some m := by
  have h : ∀ (l : List (String × ℚ × ℚ)) (st : Option ℚ × String),
      st.1.isSome ∨ l ≠ [] → (l.foldl (nearestStep lat lon) st).1.isSome := by
    intro l
    induction l with
    | nil =>
        intro st h
        rcases h with h | h
        · simpa using h
        · exact absurd rfl h
    | cons c l ih =>
        intro st _
        refine ih _ (Or.inl ?_)
        unfold nearestStep
        rcases h1 : st.1 with _ | mc
        · simp
        · simp only
          by_cases hlt : distSq lat lon c.2.1 c.2.2 < mc
          · simp [if_pos hlt]
          · simp [if_neg hlt, h1]
  have := h city_coords (none, "Bakı") (Or.inr (by simp [city_coords]))
  exact Option.isSome_iff_exists.mp this

end Analyze

/-! ## Claim C1 -/

/-- **C1.**  For a row whose address is missing or blank and whose coordinate
pair lies at squared degree-space distance greater than `1/4` (Euclidean
distance greater than `0.5`) from every one of the 14 reference centers, the
city classification returns `"Bakı"` (the capital's canonical label) when the
point lies inside the bounding box `40.1 < lat < 40.7 ∧ 49.5 < lon < 50.5`,
and `"Regional"` when it lies outside it. -/
theorem claim_C1_blank_address_far_coordinates
    (address : Option String) (lat lon : ℚ)
    (hblank : Analyze.isBlankAddress address = true)
    (hfar : ∀ c ∈ Analyze.city_coords,
      1 / 4 < Analyze.distSq lat lon c.2.1 c.2.2) :
    ((40.1 < lat ∧ lat < 40.7 ∧ 49.5 < lon ∧ lon < 50.5) →
      Analyze.extract_city_blank address (some lat) (some lon) = some "Bakı") ∧
    (¬(40.1 < lat ∧ lat < 40.7 ∧ 49.5 < lon ∧ lon < 50.5) →
      Analyze.extract_city_blank address (some lat) (some lon) = some "Regional") := by
  obtain ⟨m, hm⟩ := Analyze.nearestFold_isSome lat lon
  have hmgt : 1 / 4 < m :=
    Analyze.nearestFold_inv lat lon Analyze.city_coords (none, "Bakı")
      (by intro m' hm'; cases hm') hfar m hm
  constructor
  · intro hbox
    unfold Analyze.extract_city_blank
    rw [if_pos hblank]
    show some (Analyze.infer_city_from_coordinates lat lon) = some "Bakı"
    unfold Analyze.infer_city_from_coordinates
    dsimp only
    rw [hm, Option.getD_some, if_pos hmgt, if_pos hbox]
  · intro hbox
    unfold Analyze.extract_city_blank
    rw [if_pos hblank]
    show some (Analyze.infer_city_from_coordinates lat lon) = some "Regional"
    unfold Analyze.infer_city_from_coordinates
    dsimp only
    rw [hm, Option.getD_some, if_pos hmgt, if_neg hbox]

/-- Witness for C1: the point `(40.65, 50.4)` is farther than `0.5°` from all
14 centers and inside the capital bounding box, so a blank-address row there
is labelled `"Bakı"`; the point `(39, 46)` is farther than `0.5°` from all
centers and outside the box, so it is labelled `"Regional"`. -/
theorem claim_C1_witness :
    Analyze.extract_city_blank none (some 40.65) (some 50.4) = some "Bakı" ∧
    Analyze.extract_city_blank none (some 39) (some 46) = some "Regional" := by
  constructor
  · exact (claim_C1_blank_address_far_coordinates none 40.65 50.4 rfl
      (by intro c hc; fin_cases hc <;> norm_num [Analyze.distSq])).1 (by norm_num)
  · exact (claim_C1_blank_address_far_coordinates none 39 46 rfl
      (by intro c hc; fin_cases hc <;> norm_num [Analyze.distSq])).2 (by norm_num)

/-! ## Claim C3 -/

/-- **C3, code-bug evaluation.**  The claim states that every valid
`D°M'S.s"H` string converts to `degrees + minutes/60 + seconds/3600` within
`1e-6`.  The regex class `[°%C2%B0]+` that is meant to match the degree
marker also matches the digit characters `2` and `0`, so on the docstring's
own example `40°22'34.8"N 47°07'33.2"E` it swallows the leading `2` of the
minutes field `22`: the code computes latitude `40 + 2/60 + 34.8/3600`
(≈ 40.0430) where the claim requires `40 + 22/60 + 34.8/3600` (≈ 40.3763),
an error of a third of a degree — far outside the 1e-6 tolerance.
(CPython's `re` module was checked to backtrack exactly the same way.) -/
theorem claim_C3_minutes_digit_swallowed :
    Tam.dms_to_decimal dms_doc_example =
      some (40 + 2 / 60 + 34.8 / 3600, 47 + 7 / 60 + 33.2 / 3600) ∧
    |(40 + 2 / 60 + 34.8 / 3600 : ℚ) - (40 + 22 / 60 + 34.8 / 3600)| >
      1 / 1000000 := by
  constructor
  · have h : Tam.dms_to_decimal dms_doc_example =
        some (((40 : ℕ) : ℚ) + ((2 : ℕ) : ℚ) / 60 +
                (((34 : ℕ) : ℚ) + ((8 : ℕ) : ℚ) / 10 ^ 1) / 3600,
              ((47 : ℕ) : ℚ) + ((7 : ℕ) : ℚ) / 60 +
                (((33 : ℕ) : ℚ) + ((2 : ℕ) : ℚ) / 10 ^ 1) / 3600) := rfl
    rw [h]
    norm_num
  · have h2 : (40 + 2 / 60 + 34.8 / 3600 : ℚ) - (40 + 22 / 60 + 34.8 / 3600) =
        -(1 / 3) := by norm_num
    rw [h2, abs_neg, abs_of_pos (by norm_num : (0 : ℚ) < 1 / 3)]
    norm_num

/-! ## Claim C10 -/

/-- **C10.**  In `scrape_tam_locations`, when the JSON response is a
non-empty object and the first candidate container key found among
`data, branches, stores, locations, items` holds an empty list, the
falsy-probe fallback fires and the entire response object becomes the single
element of `branch_list` — the fallback is guarded by `not branch_list`, not
by the absence of a candidate key. -/
theorem claim_C10_empty_probe_falls_through (kvs : List (String × Json))
    (hne : kvs ≠ [])
    (hfound : Tam.containerKeys.findSome? (Json.getKey kvs) =
      some (Json.arr [])) :
    Tam.branch_list (Json.obj kvs) = Json.arr [Json.obj kvs] := by
  simp only [Tam.branch_list]
  rw [hfound]
  simp [Json.truthy, hne]

/-- Witness for C10: the response `{"data": []}` is treated as the single
branch record of the run. -/
theorem claim_C10_witness :
    Tam.branch_list (Json.obj [("data", Json.arr [])]) =
      Json.arr [Json.obj [("data", Json.arr [])]] :=
  claim_C10_empty_probe_falls_through _ (by simp) rfl

/-! ## Claim C2 -/

/-- **C2, counterexample.**  The claim states that a parsed coordinate value
outside `[-90, 90]` is treated as an absent coordinate.  The code applies no
range check anywhere: the cell `"200"` parses to `200`, which is outside the
latitude range, yet the loaded row keeps `latitude = some 200` and
`has_coords = true` — the coordinate is not treated as absent. -/
theorem claim_C2_counterexample :
    (Analyze.load_row (some "200") (some "49.9")).latitude = some 200 ∧
    (Analyze.load_row (some "200") (some "49.9")).has_coords = true ∧
    ¬((200 : ℚ) ≤ 90) := by
  refine ⟨rfl, rfl, by norm_num⟩

/-- **C2, amended.**  A coordinate cell is treated as absent exactly when
numeric parsing fails (`pd.to_numeric(errors='coerce')` yields `NaN`); a
successfully parsed value is attached to the record unchanged — never clamped
and never dropped — even when it lies outside `[-90, 90]` resp.
`[-180, 180]`. -/
theorem claim_C2_no_range_validation
    (latCell lonCell : Option String) (q : ℚ)
    (hq : Analyze.to_numeric latCell = some q)
    (_hrange : q < -90 ∨ 90 < q) :
    (Analyze.load_row latCell lonCell).latitude = some q ∧
    ((Analyze.load_row latCell lonCell).latitude = none ↔
      Analyze.to_numeric latCell = none) ∧
    (Analyze.load_row latCell lonCell).has_coords =
      (Analyze.to_numeric lonCell).isSome := by
  refine ⟨hq, ?_, ?_⟩
  · unfold Analyze.load_row
    simp [hq]
  · unfold Analyze.load_row
    simp [hq]

/-- Witness for the amended C2 at the out-of-range cell `"200"`. -/
theorem claim_C2_witness :
    (Analyze.load_row (some "200") (some "49.9")).latitude = some 200 ∧
    ((Analyze.load_row (some "200") (some "49.9")).latitude = none ↔
      Analyze.to_numeric (some "200") = none) ∧
    (Analyze.load_row (some "200") (some "49.9")).has_coords =
      (Analyze.to_numeric (some "49.9")).isSome :=
  claim_C2_no_range_validation (some "200") (some "49.9") 200 rfl
    (Or.inr (by norm_num))

/-! ## Matcher lemmas (towards claims C6 and C7) -/

namespace Re

lemma mtch_nil (input : List Char) : mtch [] input = some ([], input) := rfl

lemma mtch_lit_cons (c : Char) (ps : List Item) (d : Char) (input : List Char) :
    mtch (.lit c :: ps) (d :: input) =
      if d = c then mtch ps input else none := rfl

lemma mtch_lit_nil (c : Char) (ps : List Item) :
    mtch (.lit c :: ps) [] = none := rfl

lemma mtch_one_cons (cap : Bool) (cls : Char → Bool) (ps : List Item)
    (d : Char) (input : List Char) :
    mtch (.one cap cls :: ps) (d :: input) =
      if cls d then
        (mtch ps input).map
          (fun r => (if cap then String.mk [d] :: r.1 else r.1, r.2))
      else none := rfl

lemma mtch_one_nil (cap : Bool) (cls : Char → Bool) (ps : List Item) :
    mtch (.one cap cls :: ps) [] = none := rfl

lemma mtch_plus_eq (cap : Bool) (cls : Char → Bool) (ps : List Item)
    (input : List Char) :
    mtch (.plus cap cls :: ps) input =
      (plusSplits (input.takeWhile cls) (input.dropWhile cls)).findSome?
        (fun s => (mtch ps s.2).map
          (fun r => (if cap then String.mk s.1 :: r.1 else r.1, r.2))) := rfl

lemma mtch_star_eq (cls : Char → Bool) (ps : List Item) (input : List Char) :
    mtch (.star cls :: ps) input =
      (starSplits (input.takeWhile cls) (input.dropWhile cls)).findSome?
        (fun s => mtch ps s.2) := rfl

lemma search_nil (ps : List Item) : search ps [] = mtch ps [] := rfl

lemma search_cons_eq (ps : List Item) (c : Char) (rest : List Char) :
    search ps (c :: rest) =
      match mtch ps (c :: rest) with
      | some r => some r
      | none => search ps rest := rfl

lemma search_cons_of_none {ps : List Item} {c : Char} {rest : List Char}
    (h : mtch ps (c :: rest) = none) :
    search ps (c :: rest) = search ps rest := by
  rw [search_cons_eq, h]

lemma search_cons_of_some {ps : List Item} {c : Char} {rest : List Char}
    {r : List String × List Char} (h : mtch ps (c :: rest) = some r) :
    search ps (c :: rest) = some r := by
  rw [search_cons_eq, h]

/-- `takeWhile` / `dropWhile` split an append exactly at the boundary when
the left part is all in the class and the right part starts outside it. -/
lemma span_append (p : Char → Bool) :
    ∀ (l suf : List Char), (∀ a ∈ l, p a = true) →
      (∀ c, suf.head? = some c → p c = false) →
      (l ++ suf).takeWhile p = l ∧ (l ++ suf).dropWhile p = suf
  | [], suf, _, hsuf => by
      cases suf with
      | nil => exact ⟨rfl, rfl⟩
      | cons c s =>
          have hc := hsuf c rfl
          simp [List.takeWhile_cons, List.dropWhile_cons, hc]
  | a :: l, suf, hl, hsuf => by
      have ha : p a = true := hl a (List.mem_cons_self _ _)
      have ih := span_append p l suf
        (fun b hb => hl b (List.mem_cons_of_mem _ hb)) hsuf
      simp [List.takeWhile_cons, List.dropWhile_cons, ha, ih.1, ih.2]

/-- If the full greedy run succeeds, `findSome?` over the `+`-candidates
returns its result (the greedy candidate is tried first). -/
lemma findSome?_plusSplits {α : Type} (f : List Char × List Char → Option α)
    (pre rest : List Char) (hne : pre ≠ []) (b : α)
    (hb : f (pre, rest) = some b) :
    (plusSplits pre rest).findSome? f = some b := by
  cases pre with
  | nil => exact absurd rfl hne
  | cons a as =>
      have h1 : (a :: as).take ((a :: as).length - 0) = a :: as := by
        rw [Nat.sub_zero, List.take_length]
      have h2 : (a :: as).drop ((a :: as).length - 0) = [] := by
        rw [Nat.sub_zero, List.drop_length]
      unfold plusSplits
      rw [show (a :: as).length = as.length + 1 from rfl, List.range_succ_eq_map,
        List.map_cons, List.findSome?_cons]
      simp only [show as.length + 1 = (a :: as).length from rfl, h1, h2,
        List.nil_append, hb]

end Re

namespace Re

/-- A successful match yields exactly one captured group per capturing
item. -/
lemma mtch_groups_length :
    ∀ (ps : List Item) (input : List Char) (gs : List String)
      (rest : List Char),
      mtch ps input = some (gs, rest) → gs.length = capCount ps := by
  intro ps
  induction ps with
  | nil =>
      intro input gs rest h
      rw [mtch_nil] at h
      cases h
      rfl
  | cons item ps ih =>
      intro input gs rest h
      cases item with
      | lit c =>
          cases input with
          | nil => exact absurd h (by rw [mtch_lit_nil]; exact fun hc => nomatch hc)
          | cons d input =>
              rw [mtch_lit_cons] at h
              by_cases hd : d = c
              · rw [if_pos hd] at h
                exact ih input gs rest h
              · rw [if_neg hd] at h
                cases h
      | one cap cls =>
          cases input with
          | nil => exact absurd h (by rw [mtch_one_nil]; exact fun hc => nomatch hc)
          | cons d input =>
              rw [mtch_one_cons] at h
              by_cases hd : cls d = true
              · rw [if_pos hd] at h
                obtain ⟨r, hr, hf⟩ := Option.map_eq_some'.mp h
                obtain ⟨hg, -⟩ := Prod.mk.injEq _ _ _ _ ▸ hf
                have hlen := ih input r.1 r.2 (by rw [hr])
                rw [← hg]
                cases cap with
                | false => simp [capCount, hlen]
                | true => simp [capCount, hlen]
              · rw [if_neg hd] at h
                cases h
      | plus cap cls =>
          rw [mtch_plus_eq] at h
          obtain ⟨s, _, hfs⟩ := List.exists_of_findSome?_eq_some h
          obtain ⟨r, hr, hf⟩ := Option.map_eq_some'.mp hfs
          obtain ⟨hg, -⟩ := Prod.mk.injEq _ _ _ _ ▸ hf
          have hlen := ih s.2 r.1 r.2 (by rw [hr])
          rw [← hg]
          cases cap with
          | false => simp [capCount, hlen]
          | true => simp [capCount, hlen]
      | star cls =>
          rw [mtch_star_eq] at h
          obtain ⟨s, _, hfs⟩ := List.exists_of_findSome?_eq_some h
          exact ih s.2 gs rest hfs

/-- `search` inherits the capture-count invariant. -/
lemma search_groups_length (ps : List Item) :
    ∀ (input : List Char) (gs : List String) (rest : List Char),
      search ps input = some (gs, rest) → gs.length = capCount ps := by
  intro input
  induction input with
  | nil =>
      intro gs rest h
      rw [search_nil] at h
      exact mtch_groups_length ps [] gs rest h
  | cons c input ih =>
      intro gs rest h
      rw [search_cons_eq] at h
      cases hm : mtch ps (c :: input) with
      | some r =>
          rw [hm] at h
          cases h
          exact mtch_groups_length ps (c :: input) gs rest hm
      | none =>
          rw [hm] at h
          exact ih gs rest h

/-- A successful `q=`-pattern search always has exactly two groups. -/
lemma search_qPattern_shape {s : List Char} {gs : List String}
    {rest : List Char} (h : search qPattern s = some (gs, rest)) :
    ∃ a b, gs = [a, b] :=
  List.length_eq_two.mp (search_groups_length qPattern s gs rest h)

/-- A successful `!3d`-pattern search always has exactly one group. -/
lemma search_d3Pattern_shape {s : List Char} {gs : List String}
    {rest : List Char} (h : search d3Pattern s = some (gs, rest)) :
    ∃ a, gs = [a] :=
  List.length_eq_one.mp (search_groups_length d3Pattern s gs rest h)

end Re

namespace Re

/-- The `q=`-pattern match at a position beginning with a `[?&]` character
followed by `q=<la>,<lo><suf>`: the greedy matcher captures exactly `la` and
`lo` and leaves `suf`. -/
lemma mtch_qPattern_at (q0 : Char) (hq0 : qCls q0 = true)
    (la lo suf : List Char)
    (hla : la ≠ []) (hlac : ∀ c ∈ la, coordCls c = true)
    (hlo : lo ≠ []) (hloc : ∀ c ∈ lo, coordCls c = true)
    (hsuf : ∀ c, suf.head? = some c → coordCls c = false) :
    mtch qPattern (q0 :: 'q' :: '=' :: (la ++ ',' :: (lo ++ suf))) =
      some ([String.mk la, String.mk lo], suf) := by
  have hspan1 := span_append coordCls la (',' :: (lo ++ suf)) hlac
    (by intro c hc; injection hc with h; rw [← h]; rfl)
  have hspan2 := span_append coordCls lo suf hloc hsuf
  have h5 : mtch [.plus true coordCls] (lo ++ suf) =
      some ([String.mk lo], suf) := by
    rw [mtch_plus_eq, hspan2.1, hspan2.2]
    exact findSome?_plusSplits _ lo suf hlo _ rfl
  have h4 : mtch [.lit ',', .plus true coordCls] (',' :: (lo ++ suf)) =
      some ([String.mk lo], suf) := by
    rw [mtch_lit_cons, if_pos rfl]
    exact h5
  have h3 : mtch [.plus true coordCls, .lit ',', .plus true coordCls]
      (la ++ ',' :: (lo ++ suf)) =
      some ([String.mk la, String.mk lo], suf) := by
    rw [mtch_plus_eq, hspan1.1, hspan1.2]
    refine findSome?_plusSplits _ la _ hla _ ?_
    rw [h4]
    rfl
  have h2 : mtch [.lit '=', .plus true coordCls, .lit ',', .plus true coordCls]
      ('=' :: (la ++ ',' :: (lo ++ suf))) =
      some ([String.mk la, String.mk lo], suf) := by
    rw [mtch_lit_cons, if_pos rfl]
    exact h3
  have h1 : mtch [.lit 'q', .lit '=', .plus true coordCls, .lit ',',
      .plus true coordCls]
      ('q' :: '=' :: (la ++ ',' :: (lo ++ suf))) =
      some ([String.mk la, String.mk lo], suf) := by
    rw [mtch_lit_cons, if_pos rfl]
    exact h2
  show mtch (.one false qCls :: [.lit 'q', .lit '=', .plus true coordCls,
    .lit ',', .plus true coordCls]) _ = _
  rw [mtch_one_cons, hq0, if_pos rfl, h1]
  rfl

/-- `search` for the `q=` pattern skips any prefix free of `?` and `&`. -/
lemma search_qPattern_skip (pre rest : List Char)
    (hpre : ∀ c ∈ pre, qCls c = false) :
    search qPattern (pre ++ rest) = search qPattern rest := by
  induction pre with
  | nil => rfl
  | cons c pre ih =>
      have hc : qCls c = false := hpre c (List.mem_cons_self _ _)
      have hnone : mtch qPattern (c :: (pre ++ rest)) = none := by
        show mtch (.one false qCls :: [.lit 'q', .lit '=', .plus true coordCls,
          .lit ',', .plus true coordCls]) _ = _
        rw [mtch_one_cons, hc]
        rfl
      rw [List.cons_append, search_cons_of_none hnone]
      exact ih (fun d hd => hpre d (List.mem_cons_of_mem _ hd))

/-- A successful `!2d`-pattern search always has exactly one group. -/
lemma search_d2Pattern_shape {s : List Char} {gs : List String}
    {rest : List Char} (h : search d2Pattern s = some (gs, rest)) :
    ∃ a, gs = [a] :=
  List.length_eq_one.mp (search_groups_length d2Pattern s gs rest h)

end Re

/-! ## Claim C6 -/

/-- **C6.**  In the typed-API adapter's coordinate extraction from the `map`
field, the three formats are attempted in order: (1) if the `q=lat,lng`
query-parameter pattern matches, its two captures (always exactly two) are
returned verbatim and the later formats are not consulted; (2) if it fails
and both `!3d` and `!2d` tile-descriptor patterns match, their captures are
returned; (3) if the query pattern fails and at least one tile pattern
fails, the result is exactly the DMS conversion of the URL-decoded field.
Moreover, for every well-formed URL `pre?q=<lat>,<lng><suffix>` — `pre` free
of `?`/`&`, the two coordinates nonempty strings over `[-\d.]`, the suffix
not starting with a `[-\d.]` character — extraction returns exactly the two
embedded coordinate substrings. -/
theorem claim_C6_coordinate_format_order :
    (∀ (md : String) (gs : List String) (rest : List Char),
        Re.search Re.qPattern md.toList = some (gs, rest) →
        ∃ la lo, gs = [la, lo] ∧
          Tam.extract_map_coords md = some (.str la, .str lo)) ∧
    (∀ (md : String) (g3 g2 : List String) (r3 r2 : List Char),
        Re.search Re.qPattern md.toList = none →
        Re.search Re.d3Pattern md.toList = some (g3, r3) →
        Re.search Re.d2Pattern md.toList = some (g2, r2) →
        ∃ la lo, g3 = [la] ∧ g2 = [lo] ∧
          Tam.extract_map_coords md = some (.str la, .str lo)) ∧
    (∀ md : String,
        Re.search Re.qPattern md.toList = none →
        (Re.search Re.d3Pattern md.toList = none ∨
          Re.search Re.d2Pattern md.toList = none) →
        Tam.extract_map_coords md =
          (Tam.dms_to_decimal (Tam.unquote md)).map
            (fun p => (.num p.1, .num p.2))) ∧
    (∀ (md : String) (pre la lo suf : List Char),
        md.toList = pre ++ '?' :: 'q' :: '=' :: (la ++ ',' :: (lo ++ suf)) →
        (∀ c ∈ pre, Re.qCls c = false) →
        la ≠ [] → (∀ c ∈ la, Re.coordCls c = true) →
        lo ≠ [] → (∀ c ∈ lo, Re.coordCls c = true) →
        (∀ c, suf.head? = some c → Re.coordCls c = false) →
        Tam.extract_map_coords md =
          some (.str (String.mk la), .str (String.mk lo))) := by
  have part1 : ∀ (md : String) (gs : List String) (rest : List Char),
      Re.search Re.qPattern md.toList = some (gs, rest) →
      ∃ la lo, gs = [la, lo] ∧
        Tam.extract_map_coords md = some (.str la, .str lo) := by
    intro md gs rest h
    obtain ⟨la, lo, hshape⟩ := Re.search_qPattern_shape h
    refine ⟨la, lo, hshape, ?_⟩
    subst hshape
    unfold Tam.extract_map_coords
    rw [h]
  refine ⟨part1, ?_, ?_, ?_⟩
  · intro md g3 g2 r3 r2 hq h3 h2
    obtain ⟨la, hla⟩ := Re.search_d3Pattern_shape h3
    obtain ⟨lo, hlo⟩ := Re.search_d2Pattern_shape h2
    refine ⟨la, lo, hla, hlo, ?_⟩
    subst hla hlo
    unfold Tam.extract_map_coords
    rw [hq]
    dsimp only
    rw [h3, h2]
  · intro md hq hd
    unfold Tam.extract_map_coords
    rw [hq]
    dsimp only
    rcases hd with hd | hd
    · rw [hd]
    · cases h3 : Re.search Re.d3Pattern md.toList with
      | none => rw [hd]
      | some v =>
          obtain ⟨g3, r3⟩ := v
          obtain ⟨la, hla⟩ := Re.search_d3Pattern_shape h3
          subst hla
          rw [hd]
  · intro md pre la lo suf hdecomp hpre hla hlac hlo hloc hsuf
    have hq : Re.search Re.qPattern md.toList =
        some ([String.mk la, String.mk lo], suf) := by
      rw [hdecomp, Re.search_qPattern_skip pre _ hpre,
        Re.search_cons_of_some
          (Re.mtch_qPattern_at '?' rfl la lo suf hla hlac hlo hloc hsuf)]
    unfold Tam.extract_map_coords
    rw [hq]

/-- Witness for C6: on `maps?q=40.1,49.9` the extraction returns exactly the
embedded substrings `40.1` and `49.9`. -/
theorem claim_C6_witness :
    Tam.extract_map_coords "maps?q=40.1,49.9" =
      some (.str "40.1", .str "49.9") :=
  claim_C6_coordinate_format_order.2.2.2 "maps?q=40.1,49.9"
    ['m', 'a', 'p', 's'] ['4', '0', '.', '1'] ['4', '9', '.', '9'] []
    rfl (by decide) (by decide) (by decide) (by decide) (by decide)
    (by intro c hc; cases hc)

/-! ## Claim C7 -/

/-- **C7.**  Coordinate normalization never raises and never substitutes a
default: if the DMS pattern does not match, `dms_to_decimal` returns the
unresolved result (modelled `none`, the `('', '')` of the source); if it
matches but a captured numeric is malformed (`float()` raises), the result
is again unresolved; and if all three URL formats fail in the adapter, the
coordinate fields stay empty. -/
theorem claim_C7_unresolved_stays_empty :
    (∀ s : String, Re.search Re.dmsPattern s.toList = none →
        Tam.dms_to_decimal s = none) ∧
    (∀ (s : String) (gs : List String) (rest : List Char)
        (d1 m1 s1 h1 d2 m2 s2 h2 : String),
        Re.search Re.dmsPattern s.toList = some (gs, rest) →
        gs = [d1, m1, s1, h1, d2, m2, s2, h2] →
        parseFloatChars s1.toList = none ∨ parseFloatChars s2.toList = none →
        Tam.dms_to_decimal s = none) ∧
    (∀ md : String,
        Re.search Re.qPattern md.toList = none →
        (Re.search Re.d3Pattern md.toList = none ∨
          Re.search Re.d2Pattern md.toList = none) →
        Tam.dms_to_decimal (Tam.unquote md) = none →
        Tam.extract_map_coords md = none) := by
  refine ⟨?_, ?_, ?_⟩
  · intro s h
    unfold Tam.dms_to_decimal
    rw [h]
  · intro s gs rest d1 m1 s1 hh1 d2 m2 s2 hh2 hsearch hg hbad
    subst hg
    unfold Tam.dms_to_decimal
    rw [hsearch]
    dsimp only
    rcases hbad with hb | hb
    · cases hp1 : parseFloatChars d1.toList with
      | none => simp [hp1]
      | some ld =>
          cases hp2 : parseFloatChars m1.toList with
          | none => simp [hp1, hp2]
          | some lm =>
              simp [hp1, hp2, show parseFloatChars s1.data = none from hb]
    · cases hp1 : parseFloatChars d1.toList with
      | none => simp [hp1]
      | some ld =>
          cases hp2 : parseFloatChars m1.toList with
          | none => simp [hp1, hp2]
          | some lm =>
              cases hp3 : parseFloatChars s1.toList with
              | none => simp [hp1, hp2, hp3]
              | some ls =>
                  cases hp4 : parseFloatChars d2.toList with
                  | none => simp [hp1, hp2, hp3, hp4]
                  | some nd =>
                      cases hp5 : parseFloatChars m2.toList with
                      | none => simp [hp1, hp2, hp3, hp4, hp5]
                      | some nm =>
                          simp [hp1, hp2, hp3, hp4, hp5,
                            show parseFloatChars s2.data = none from hb]
  · intro md hq hd hdms
    have := claim_C6_coordinate_format_order.2.2.1 md hq hd
    rw [this, hdms]
    rfl

/-- Witness for C7, at three concrete inputs: a string with no DMS pattern; a
DMS string whose seconds field `3.4.8` makes `float()` fail; and a `map`
field matching none of the three formats. -/
theorem claim_C7_witness :
    Tam.dms_to_decimal "supermarket" = none ∧
    Tam.dms_to_decimal (String.mk
      ['4', '0', Re.degChar, '2', '2', Re.aposChar, '3', '.', '4', '.', '8',
       Re.quotChar, 'N', ' ',
       '4', '7', Re.degChar, '0', '7', Re.aposChar, '3', '3', '.', '2',
       Re.quotChar, 'E']) = none ∧
    Tam.extract_map_coords "nozip" = none := by
  refine ⟨claim_C7_unresolved_stays_empty.1 "supermarket" rfl, ?_, ?_⟩
  · exact claim_C7_unresolved_stays_empty.2.1 _
      ["40", "2", "3.4.8", "N", "47", "7", "33.2", "E"] []
      "40" "2" "3.4.8" "N" "47" "7" "33.2" "E" rfl rfl (Or.inl rfl)
  · exact claim_C7_unresolved_stays_empty.2.2 "nozip" rfl (Or.inl rfl) rfl

/-! ## Order lemmas for the merger's sort -/

lemma charListLe_total : ∀ as bs : List Char,
    charListLe as bs = true ∨ charListLe bs as = true
  | [], _ => Or.inl rfl
  | _ :: _, [] => Or.inr rfl
  | a :: as, b :: bs => by
      by_cases hab : a = b
      · subst hab
        have := charListLe_total as bs
        simpa [charListLe] using this
      · rcases lt_or_gt_of_ne hab with h | h
        · left; simp [charListLe, hab, h]
        · right
          have hba : ¬b = a := fun hc => hab hc.symm
          simp [charListLe, hba, h]

lemma charListLe_trans : ∀ as bs cs : List Char,
    charListLe as bs = true → charListLe bs cs = true →
    charListLe as cs = true
  | [], _, _, _, _ => rfl
  | _ :: _, [], _, h1, _ => by simp [charListLe] at h1
  | _ :: _, _ :: _, [], _, h2 => by simp [charListLe] at h2
  | a :: as, b :: bs, c :: cs, h1, h2 => by
      by_cases hab : a = b
      · subst hab
        by_cases hac : a = c
        · subst hac
          simp only [charListLe, if_pos rfl] at h1 h2 ⊢
          exact charListLe_trans as bs cs h1 h2
        · simp only [charListLe, if_pos rfl] at h1
          simpa [charListLe, hac] using h2
      · by_cases hbc : b = c
        · subst hbc
          simpa [charListLe, hab] using h1
        · have h1' : a < b := by simpa [charListLe, hab] using h1
          have h2' : b < c := by simpa [charListLe, hbc] using h2
          have hac : a < c := lt_trans h1' h2'
          simp [charListLe, ne_of_lt hac, hac]

lemma strLe_total (a b : String) : strLe a b = true ∨ strLe b a = true :=
  charListLe_total a.toList b.toList

lemma strLe_trans (a b c : String) :
    strLe a b = true → strLe b c = true → strLe a c = true :=
  charListLe_trans a.toList b.toList c.toList

/-! ## Claim C5 -/

/-- **C5.**  When the merger writes output (`combined_data` non-empty): the
header is exactly the fixed preferred ordering
`chain, name, address, phone, hours, latitude, longitude` followed by the
remaining fields of the union of all fields seen across all sources, sorted
(by Python's codepoint string order, `strLe`); every tagged source row is
merged; the written rows are the rendered source rows in order; and a row
whose dict lacks a header field gets the empty string in that column. -/
theorem claim_C5_merged_header_and_blank_cells
    (inputs : List (String × List Combine.Row))
    (fns : List String) (rows : List (List String))
    (h : Combine.combine_supermarket_data inputs = some (fns, rows)) :
    fns = Combine.common_fields ++
      Combine.extraFields (Combine.combinedData inputs) ∧
    List.Sorted (fun a b => strLe a b = true) (fns.drop 7) ∧
    (∀ f, f ∈ fns ↔ f ∈ Combine.common_fields ∨
      f ∈ Combine.allFields (Combine.combinedData inputs)) ∧
    rows = (Combine.combinedData inputs).map (Combine.renderRow fns) ∧
    (∀ path rws r0, (path, rws) ∈ inputs → r0 ∈ rws →
      Combine.rowSet r0 "chain" (Combine.chainName path) ∈
        Combine.combinedData inputs) ∧
    (∀ r ∈ Combine.combinedData inputs, ∀ (i : ℕ) (f : String),
      fns[i]? = some f → (∀ p ∈ r, p.1 ≠ f) →
      (Combine.renderRow fns r)[i]? = some "") := by
  unfold Combine.combine_supermarket_data at h
  by_cases hd : (Combine.combinedData inputs).isEmpty
  · rw [if_pos hd] at h
    cases h
  · rw [if_neg hd] at h
    obtain ⟨hfns, hrows⟩ := Prod.ext_iff.mp (Option.some.inj h)
    subst hfns
    refine ⟨rfl, ?_, ?_, hrows.symm, ?_, ?_⟩
    · show List.Sorted _ ((Combine.common_fields ++
        Combine.extraFields (Combine.combinedData inputs)).drop 7)
      rw [show (7 : ℕ) = Combine.common_fields.length from rfl, List.drop_left]
      exact @List.sorted_insertionSort String (fun a b => strLe a b = true) _
        ⟨fun a b => strLe_total a b⟩ ⟨fun a b c => strLe_trans a b c⟩ _
    · intro f
      unfold Combine.fieldnames Combine.extraFields
      rw [List.mem_append]
      constructor
      · rintro (hf | hf)
        · exact Or.inl hf
        · have := (List.perm_insertionSort (fun a b => strLe a b = true) _).mem_iff.mp hf
          exact Or.inr (List.mem_of_mem_filter this)
      · rintro (hf | hf)
        · exact Or.inl hf
        · by_cases hc : f ∈ Combine.common_fields
          · exact Or.inl hc
          · refine Or.inr ((List.perm_insertionSort (fun a b => strLe a b = true) _).mem_iff.mpr ?_)
            rw [List.mem_filter]
            exact ⟨hf, by simpa using hc⟩
    · intro path rws r0 hmem hr0
      unfold Combine.combinedData
      rw [List.mem_flatMap]
      exact ⟨(path, rws), hmem, List.mem_map_of_mem _ hr0⟩
    · intro r _ i f hif hnone
      unfold Combine.renderRow
      rw [List.getElem?_map, hif]
      have hfind : r.find? (fun p => p.1 = f) = none := by
        rw [List.find?_eq_none]
        intro p hp
        simpa using hnone p hp
      simp [hfind]

/-- Witness for C5 on `exInputs` (two sources with disjoint extra fields
`zz` and `aa`): the header is the seven preferred columns followed by
`aa, zz`, sorted; the cells of fields absent from a source are empty. -/
theorem claim_C5_witness :
    Combine.combine_supermarket_data Combine.exInputs =
      some (["chain", "name", "address", "phone", "hours", "latitude",
             "longitude", "aa", "zz"],
        [["BRAVO", "A", "", "", "", "", "", "", "x"],
         ["TAM", "B", "", "", "", "", "", "y", ""]]) ∧
    List.Sorted (fun a b => strLe a b = true)
      ((["chain", "name", "address", "phone", "hours", "latitude",
         "longitude", "aa", "zz"] : List String).drop 7) := by
  refine ⟨rfl, ?_⟩
  exact (claim_C5_merged_header_and_blank_cells Combine.exInputs _ _ rfl).2.1

/-! ## Claim C9 -/

/-- **C9.**  In the streaming-fragment strategy a push-call payload is
scanned for store objects only if it textually contains all three marker
substrings `"title"`, `"address"`, `"phone_number"`: a payload missing at
least one marker contributes zero stores. -/
theorem claim_C9_marker_gate (acc : List Araz.Store) (s : String)
    (h : strContains s Araz.markerTitle = false ∨
      strContains s Araz.markerAddress = false ∨
      strContains s Araz.markerPhone = false) :
    Araz.chunkStores acc (.payload s) = acc := by
  have hm : Araz.markersPresent s = false := by
    unfold Araz.markersPresent
    rcases h with h | h | h <;> simp [h]
  simp [Araz.chunkStores, hm]

/-- Witness for C9: a payload containing the title and address markers but
no phone marker contributes zero stores. -/
theorem claim_C9_witness :
    Araz.chunkStores []
      (.payload (String.mk (Araz.markerTitle.toList ++
        ',' :: Araz.markerAddress.toList))) = [] ∧
    strContains (String.mk (Araz.markerTitle.toList ++
      ',' :: Araz.markerAddress.toList)) Araz.markerTitle = true ∧
    strContains (String.mk (Araz.markerTitle.toList ++
      ',' :: Araz.markerAddress.toList)) Araz.markerAddress = true := by
  refine ⟨claim_C9_marker_gate [] _ (Or.inr (Or.inr rfl)), rfl, rfl⟩

/-! ## Claim C4 -/

/-- **C4, counterexample.**  The claim says every adapter de-duplicates
identical `(name, address)` raw listings.  The bravo adapter appends one
record per article with no de-duplication: a document with two identical
branch articles yields two identical records with the same
`(name, address)`. -/
theorem claim_C4_counterexample :
    Bravo.scrape_bravo_locations
      [⟨some "Bravo Hiper",
        [⟨["location"], some "Hiper"⟩, ⟨["location"], some "28 May St"⟩],
        "40.4", "49.8", "", none⟩,
       ⟨some "Bravo Hiper",
        [⟨["location"], some "Hiper"⟩, ⟨["location"], some "28 May St"⟩],
        "40.4", "49.8", "", none⟩] =
      [[("name", "Bravo Hiper"), ("type", "Hiper"), ("phone", ""),
        ("address", "28 May St"), ("hours", ""), ("latitude", "40.4"),
        ("longitude", "49.8"), ("category_id", ""), ("google_maps_url", "")],
       [("name", "Bravo Hiper"), ("type", "Hiper"), ("phone", ""),
        ("address", "28 May St"), ("hours", ""), ("latitude", "40.4"),
        ("longitude", "49.8"), ("category_id", ""), ("google_maps_url", "")]] :=
  rfl

lemma addStore_pairwise (acc : List Araz.Store) (gs : List String)
    (h : acc.Pairwise Araz.distinctKey) :
    (Araz.addStore acc gs).Pairwise Araz.distinctKey := by
  unfold Araz.addStore
  cases hp : Araz.storeOfGroups gs with
  | none => exact h
  | some st =>
      dsimp only
      by_cases hdup : acc.any (fun s => s.name == st.name && s.address == st.address) = true
      · rw [if_pos hdup]
        exact h
      · rw [if_neg hdup]
        rw [List.pairwise_append]
        refine ⟨h, List.pairwise_singleton _ _, ?_⟩
        intro s hs t ht
        rw [List.mem_singleton] at ht
        subst ht
        have := (List.any_eq_false.mp (Bool.not_eq_true _ ▸ hdup)) s hs
        unfold Araz.distinctKey
        intro hcontra
        apply this
        simp [hcontra.1, hcontra.2]

lemma foldl_addStore_pairwise (ms : List (List String)) :
    ∀ acc : List Araz.Store, acc.Pairwise Araz.distinctKey →
      (ms.foldl Araz.addStore acc).Pairwise Araz.distinctKey := by
  induction ms with
  | nil => intro acc h; exact h
  | cons gs ms ih =>
      intro acc h
      exact ih _ (addStore_pairwise acc gs h)

lemma chunkStores_pairwise (acc : List Araz.Store) (ch : Araz.Chunk)
    (h : acc.Pairwise Araz.distinctKey) :
    (Araz.chunkStores acc ch).Pairwise Araz.distinctKey := by
  cases ch with
  | payload s =>
      unfold Araz.chunkStores
      dsimp only
      by_cases hm : Araz.markersPresent s = true
      · rw [if_pos hm]
        exact foldl_addStore_pairwise _ acc h
      · rw [if_neg hm]
        exact h
  | badJson => exact h
  | tooShort => exact h
  | nonString => exact h

/-- **C4, amended.**  Only the araz streaming-fragment strategy
de-duplicates: its output never contains two stores with the same
`(name, address)` pair.  (The other adapters, e.g. bravo, keep every raw
listing — see the counterexample.) -/
theorem claim_C4_streaming_dedup (chunks : List Araz.Chunk) :
    (Araz.primaryStores chunks).Pairwise Araz.distinctKey := by
  unfold Araz.primaryStores
  have : ∀ (cs : List Araz.Chunk) (acc : List Araz.Store),
      acc.Pairwise Araz.distinctKey →
      (cs.foldl Araz.chunkStores acc).Pairwise Araz.distinctKey := by
    intro cs
    induction cs with
    | nil => intro acc h; exact h
    | cons ch cs ih =>
        intro acc h
        exact ih _ (chunkStores_pairwise acc ch h)
  exact this chunks [] List.Pairwise.nil

/-! ## Claim C8 -/

/-- **C8, counterexample.**  The claim says the tertiary (HTML) strategy
runs only when both prior strategies yield zero results.  On `mixDoc` the
primary yields zero, the secondary extracts one record and then raises on a
non-dict store element (`store.get` on a number); the `except` catches the
error, the record already appended is kept, and the HTML strategy still runs
and appends its own record — the output mixes both strategies although the
secondary yielded one record. -/
theorem claim_C8_counterexample :
    (Araz.storeLoop Araz.mixElems).1.length = 1 ∧
    (Araz.storeLoop Araz.mixElems).2 = false ∧
    Araz.scrape_araz_locations Araz.mixDoc =
      (Araz.storeLoop Araz.mixElems).1 ++
        Araz.tertiary Araz.mixDoc.pageListDivs Araz.mixDoc.accordionDivs ∧
    (Araz.tertiary Araz.mixDoc.pageListDivs Araz.mixDoc.accordionDivs).length
      = 1 := ⟨rfl, rfl, rfl, rfl⟩

/-- **C8, amended.**  First success wins, with one exception path: (1) if
the streaming strategy yields any store, its list is the whole result and
the other strategies are not consulted; (2) the `__NEXT_DATA__` strategy is
consulted only when the primary yields zero, and when its extraction loop
completes over a non-empty store list its records are the whole result; (3)
when that loop raises mid-way, the records extracted so far are kept and the
HTML strategy's records are appended after them; (4) with no `__NEXT_DATA__`
script the result is the HTML strategy's alone. -/
theorem claim_C8_strategy_order :
    (∀ (chunks : List Araz.Chunk) (nd : Option Araz.NextData)
        (pl ad : List Araz.HtmlDiv),
      Araz.primaryStores chunks ≠ [] →
      Araz.scrape_araz_locations ⟨chunks, nd, pl, ad⟩ =
        (Araz.primaryStores chunks).map Araz.storeRec) ∧
    (∀ (chunks : List Araz.Chunk) (data : Json) (pl ad : List Araz.HtmlDiv)
        (pp : Json) (elems : List Json),
      Araz.primaryStores chunks = [] →
      (Araz.dictGet data "props" (.obj [])).bind
        (fun p => Araz.dictGet p "pageProps" (.obj [])) = some pp →
      Araz.probeStores Araz.secondaryKeys pp = some (some (.arr elems)) →
      elems ≠ [] →
      (Araz.storeLoop elems).2 = true →
      Araz.scrape_araz_locations ⟨chunks, some (.ok data), pl, ad⟩ =
        (Araz.storeLoop elems).1) ∧
    (∀ (chunks : List Araz.Chunk) (data : Json) (pl ad : List Araz.HtmlDiv)
        (pp : Json) (elems : List Json),
      Araz.primaryStores chunks = [] →
      (Araz.dictGet data "props" (.obj [])).bind
        (fun p => Araz.dictGet p "pageProps" (.obj [])) = some pp →
      Araz.probeStores Araz.secondaryKeys pp = some (some (.arr elems)) →
      elems ≠ [] →
      (Araz.storeLoop elems).2 = false →
      Araz.scrape_araz_locations ⟨chunks, some (.ok data), pl, ad⟩ =
        (Araz.storeLoop elems).1 ++ Araz.tertiary pl ad) ∧
    (∀ (chunks : List Araz.Chunk) (pl ad : List Araz.HtmlDiv),
      Araz.primaryStores chunks = [] →
      Araz.scrape_araz_locations ⟨chunks, none, pl, ad⟩ =
        Araz.tertiary pl ad) := by
  refine ⟨?_, ?_, ?_, ?_⟩
  · intro chunks nd pl ad h
    unfold Araz.scrape_araz_locations
    dsimp only
    rw [show (Araz.primaryStores chunks).isEmpty = false from by
      cases hp : Araz.primaryStores chunks with
      | nil => exact absurd hp h
      | cons a l => rfl]
    rfl
  · intro chunks data pl ad pp elems hprim hnav hprobe hne hloop
    unfold Araz.scrape_araz_locations
    dsimp only
    rw [show (Araz.primaryStores chunks).isEmpty = true from by
      rw [hprim]; rfl]
    rw [hnav]
    dsimp only
    rw [hprobe]
    dsimp only
    rw [show (Json.arr elems).truthy = true from by
      cases elems with
      | nil => exact absurd rfl hne
      | cons a l => rfl]
    rw [hloop]
    rfl
  · intro chunks data pl ad pp elems hprim hnav hprobe hne hloop
    unfold Araz.scrape_araz_locations
    dsimp only
    rw [show (Araz.primaryStores chunks).isEmpty = true from by
      rw [hprim]; rfl]
    rw [hnav]
    dsimp only
    rw [hprobe]
    dsimp only
    rw [show (Json.arr elems).truthy = true from by
      cases elems with
      | nil => exact absurd rfl hne
      | cons a l => rfl]
    rw [hloop]
    rfl
  · intro chunks pl ad hprim
    unfold Araz.scrape_araz_locations
    dsimp only
    rw [show (Araz.primaryStores chunks).isEmpty = true from by
      rw [hprim]; rfl]
    rfl

/-- Witness for the amended C8 at `mixDoc`: the mixed result is exactly the
secondary's partial list followed by the HTML record. -/
theorem claim_C8_witness :
    Araz.scrape_araz_locations Araz.mixDoc =
      [[("name", Json.str "JSON Store"), ("address", Json.str ""),
        ("phone", Json.str ""), ("hours", Json.str "")],
       [("name", Json.str "HTML Store"), ("address", Json.str "HTML Addr"),
        ("phone", Json.str ""), ("hours", Json.str "")]] := by
  have := claim_C8_strategy_order.2.2.1 [] (Json.obj [("props",
    Json.obj [("pageProps", Json.obj [("stores", Json.arr Araz.mixElems)])])])
    Araz.mixDoc.pageListDivs [] (Json.obj [("stores", Json.arr Araz.mixElems)])
    Araz.mixElems rfl rfl rfl (by simp [Araz.mixElems]) rfl
  exact this.trans rfl
